import Mathlib

/-!
# Newton fractal viewer: host program (`src/main.cpp`)

A shallow embedding of the host side of the Newton fractal viewer: the
parameter record, the texture bookkeeping, `renderFractalCpu`, and the main
loop that decides when the kernel runs.  The ISPC kernel itself
(`ispc::render`) is not part of `main.cpp`; it is modelled from the written
specification and clearly marked as such.

Conventions
* C++ `int` values are carried as `Int`; the 32-bit range is stated as a
  hypothesis where it matters.
* `size_t` is the 64-bit unsigned type of the x86-64 targets the program is
  built for; conversions and products are reduced modulo `2 ^ 64`.
* `std::vector<uint32_t>` is a `List Nat`.  A call that throws
  (`std::length_error`, `std::bad_alloc`) has the result `none`; `main` has no
  handler, so an exception ends the program and the loop has no next state.
* ImGui / GLFW / OpenGL are external: what the widgets report in one frame is
  the input of that frame (`FrameInput`), and the calls that matter
  (`ispc::render`, `glTexSubImage2D`) are recorded in a ghost trace.
-/

namespace NewtonFractal

/-! ## Data model (main.cpp 19-29) -/

/-- Record `struct FractalParams` with its default member initialisers. -/
structure FractalParams where
  width : Int := 1024
  height : Int := 1024
  n : Int := 5
  max_iter : Int := 60
deriving DecidableEq, Repr

/-- Record `struct GLImage`: texture name and the dimensions last allocated. -/
structure GLImage where
  tex : Nat := 0
  w : Int := 0
  h : Int := 0
deriving DecidableEq, Repr

/-- Calls observed by the collaborators of the host program. -/
inductive Event where
  /-- The call `ispc::render(p.width, p.height, p.n, p.max_iter, ..)`; the
  record holds the four values passed. -/
  | render (p : FractalParams)
  /-- The call `glTexSubImage2D(.., img.w, img.h, .., rgba.data())`; `data` is
  the content of the vector behind the pointer. -/
  | upload (w h : Int) (data : List Nat)
deriving DecidableEq, Repr

/-! ## Machine arithmetic and `std::vector` -/

/-- Number of values of `size_t` (64-bit). -/
def SIZE_MOD : Nat := 2 ^ 64

/-- Conversion `size_t(x)` of an `int`: reduction modulo `2 ^ 64`. -/
def size_t (x : Int) : Nat := (x % (SIZE_MOD : Int)).toNat

/-- Product of two `size_t` values, wrapping modulo `2 ^ 64`. -/
def size_mul (a b : Nat) : Nat := (a * b) % SIZE_MOD

/-- Value of `max_size()` of a `std::vector<uint32_t>` with 64-bit pointers:
`PTRDIFF_MAX / sizeof(uint32_t)`. -/
def VECTOR_MAX_SIZE : Nat := 2 ^ 61 - 1

/-- Method `std::vector<uint32_t>::resize(k)`.  A request above `max_size()`
throws `std::length_error`; a growth for which the allocator has no memory
throws `std::bad_alloc`, and `badAlloc` tells whether the allocator refuses
during this call.  In both cases the result is `none` and the vector is left
as it was.  Otherwise the first `k` entries are kept and the entries that are
added are value-initialised (zero). -/
def resize (v : List Nat) (k : Nat) (badAlloc : Bool) : Option (List Nat) :=
  if VECTOR_MAX_SIZE < k then none
  else if badAlloc = true ∧ v.length < k then none
  else some (v.take k ++ List.replicate (k - v.length) 0)

/-! ## The kernel, modelled from the specification -/

/-- Type of the per-pixel colour function of the kernel: arguments are
`width height n max_iter px py`, the result is the packed RGBA value. -/
abbrev PixelFn := Int → Int → Int → Int → Nat → Nat → Nat

/-- Modelled from the spec: the inner loop of `ispc::render` over one row
(section 4.2, step 4): for `px = 0 .. count-1` the colour of pixel `(px, py)`
is written at the row-major slot `py * width + px` as a 32-bit value. -/
def writeRow (f : Nat → Nat → Nat) (width py : Nat) : Nat → List Nat → List Nat
  | 0, out => out
  | px + 1, out => (writeRow f width py px out).set (py * width + px) (f px py % 2 ^ 32)

/-- Modelled from the spec: the outer loop of `ispc::render` over the rows
`py = 0 .. count-1`. -/
def writeRows (f : Nat → Nat → Nat) (width : Nat) : Nat → List Nat → List Nat
  | 0, out => out
  | py + 1, out => writeRow f width py width (writeRows f width py out)

/-- Modelled from the spec: the ISPC kernel `ispc::render(width, height, n,
max_iter, out)`, whose source (`newton.ispc`) is not in `main.cpp`.  Per
section 4.2 every pixel `(px, py)` of `[0, width) x [0, height)` gets a colour
that is a function of `(width, height, n, max_iter, px, py)` only and is
written to its own slot of the row-major output buffer.  The colour function
(iteration, palette, floating point) is the parameter `pixel`. -/
def ispc.render (pixel : PixelFn) (width height n max_iter : Int) (out : List Nat) : List Nat :=
  writeRows (pixel width height n max_iter) width.toNat height.toNat out

/-! ## Host functions (main.cpp 36-62) -/

/-- Texture name handed out by `glGenTextures` (any non-zero name). -/
def glGenTextures : Nat := 1

/-- Function `createOrResizeTexture(img, w, h)` (main.cpp 36-50): returns the
updated `img`.  The texture is generated on first use; the recorded
dimensions change only when they differ from the requested ones. -/
def createOrResizeTexture (img : GLImage) (w h : Int) : GLImage :=
  let img1 : GLImage := if img.tex = 0 then { img with tex := glGenTextures } else img
  if img1.w = w ∧ img1.h = h then img1
  else { img1 with w := w, h := h }

/-- Function `uploadImage(img, rgba)` (main.cpp 52-57): the texture upload of
`img.w x img.h` texels read from `rgba.data()`. -/
def uploadImage (img : GLImage) (rgba : List Nat) : Event :=
  Event.upload img.w img.h rgba

/-- Function `renderFractalCpu(p, rgba)` (main.cpp 59-62): returns the new
content of `rgba`.  The vector is resized to `size_t(width) * size_t(height)`
entries and handed to the kernel together with the four fields of `p`.  An
exception of `resize` leaves the function before the kernel is called. -/
def renderFractalCpu (pixel : PixelFn) (badAlloc : Bool) (p : FractalParams)
    (rgba : List Nat) : Option (List Nat) :=
  match resize rgba (size_mul (size_t p.width) (size_t p.height)) badAlloc with
  | none => none
  | some rgba1 => some (ispc.render pixel p.width p.height p.n p.max_iter rgba1)

/-! ## The main loop (main.cpp 112-232) -/

/-- Local state of `main` that the loop reads and writes (main.cpp 113-117),
plus the ghost `trace` of kernel calls and uploads made so far.  The locals
`dragging` and `lastMouse` are never used by the loop. -/
structure MainState where
  params : FractalParams
  glimg : GLImage
  rgba : List Nat
  needs_render : Bool
  auto_render : Bool
  trace : List Event
deriving DecidableEq, Repr

/-- What the widgets report during one frame. -/
structure FrameInput where
  /-- The checkbox was clicked: `ImGui::Checkbox` flips `auto_render`. -/
  checkbox : Bool := false
  /-- The Resolution slider stored a new value in `params.width` and returned true. -/
  resolution : Option Int := none
  /-- The n slider stored a new value in `params.n` and returned true. -/
  nPower : Option Int := none
  /-- The max_iter slider stored a new value in `params.max_iter` and returned true. -/
  maxIter : Option Int := none
  /-- The button "Render Now" reports a press when it is shown. -/
  renderNow : Bool := false
  /-- The allocator refuses memory during the render step of this frame. -/
  badAlloc : Bool := false
deriving DecidableEq, Repr

/-- State of `main` on entry to the loop (main.cpp 113-122). -/
def initState : MainState :=
  let params : FractalParams := {}
  { params := params
    glimg := createOrResizeTexture {} params.width params.height
    rgba := []
    needs_render := true
    auto_render := false
    trace := [] }

/-- Statement `createOrResizeTexture(glimg, params.width, params.height)`. -/
def callCreateOrResizeTexture (s : MainState) : MainState :=
  { s with glimg := createOrResizeTexture s.glimg s.params.width s.params.height }

/-- Statement `renderFractalCpu(params, rgba)`: `params` is passed by const
reference, `rgba` by reference; the kernel call is recorded when it is
reached. -/
def callRenderFractalCpu (pixel : PixelFn) (badAlloc : Bool) (s : MainState) :
    Option MainState :=
  match renderFractalCpu pixel badAlloc s.params s.rgba with
  | none => none
  | some rgba1 =>
    some { s with
      rgba := rgba1
      trace := s.trace ++
        [Event.render ⟨s.params.width, s.params.height, s.params.n, s.params.max_iter⟩] }

/-- State of `main` at the call of `uploadImage` (main.cpp 156 and 167). -/
def atUpload (pixel : PixelFn) (badAlloc : Bool) (s : MainState) : Option MainState :=
  callRenderFractalCpu pixel badAlloc (callCreateOrResizeTexture s)

/-- Statement `uploadImage(glimg, rgba)`. -/
def callUploadImage (s : MainState) : MainState :=
  { s with trace := s.trace ++ [uploadImage s.glimg s.rgba] }

/-- Block "Re-render when needed" (main.cpp 149-172). -/
def renderStep (pixel : PixelFn) (badAlloc : Bool) (s : MainState) : Option MainState :=
  if s.auto_render then
    match atUpload pixel badAlloc s with
    | none => none
    | some u => some (callUploadImage u)
  else if s.needs_render then
    match atUpload pixel badAlloc s with
    | none => none
    | some u => some { callUploadImage u with needs_render := false }
  else some s

/-- Controls pane (main.cpp 190-211).  The three inner statements
`if (auto_render && ImGui::IsItemDeactivatedAfterEdit());` have an empty body. -/
def controlsStep (i : FrameInput) (s : MainState) : MainState :=
  let auto_render := if i.checkbox then !s.auto_render else s.auto_render
  let p1 : FractalParams :=
    match i.resolution with
    | some v => { s.params with width := v, height := v }
    | none => s.params
  let p2 : FractalParams :=
    match i.nPower with
    | some v => { p1 with n := v }
    | none => p1
  let p3 : FractalParams :=
    match i.maxIter with
    | some v => { p2 with max_iter := v }
    | none => p2
  let needs_render :=
    if !auto_render then (if i.renderNow then true else s.needs_render)
    else s.needs_render
  { s with params := p3, needs_render := needs_render, auto_render := auto_render }

/-- One iteration of the `while` loop. -/
def frame (pixel : PixelFn) (s : MainState) (i : FrameInput) : Option MainState :=
  match renderStep pixel i.badAlloc s with
  | none => none
  | some r => some (controlsStep i r)

/-- State at the top of the loop after the frames `inputs` have run from `s`. -/
def runFrom (pixel : PixelFn) : MainState → List FrameInput → Option MainState
  | s, [] => some s
  | s, i :: rest =>
    match frame pixel s i with
    | none => none
    | some s1 => runFrom pixel s1 rest

/-- State at the top of the loop after the frames `inputs` have run. -/
def run (pixel : PixelFn) (inputs : List FrameInput) : Option MainState :=
  runFrom pixel initState inputs

/-- State of `main` after a render branch (main.cpp 151-159 or 162-171) in
which `renderFractalCpu` returned the buffer `r`: the texture has the
dimensions of `params`, the kernel call and the upload are recorded, and
`needs_render` is kept by the auto branch and cleared by the other one. -/
def afterRender (s : MainState) (r : List Nat) : MainState :=
  { params := s.params
    glimg := createOrResizeTexture s.glimg s.params.width s.params.height
    rgba := r
    needs_render := s.auto_render && s.needs_render
    auto_render := s.auto_render
    trace := s.trace ++
      [Event.render s.params, Event.upload s.params.width s.params.height r] }

/-- Parameters of the kernel calls in a trace, oldest first. -/
def kernelCalls : List Event → List FractalParams
  | [] => []
  | Event.render p :: es => p :: kernelCalls es
  | Event.upload _ _ _ :: es => kernelCalls es

/-- Range check of a slider value (`none`: the slider did not change). -/
def sliderWithin (lo hi : Int) : Option Int → Bool
  | none => true
  | some v => decide (lo ≤ v) && decide (v ≤ hi)

/-- Every slider value of the frame lies in the range declared for its slider
(Resolution 256..4096, n 2..30, max_iter 3..200). -/
def FrameInput.inDeclaredRange (i : FrameInput) : Bool :=
  sliderWithin 256 4096 i.resolution && sliderWithin 2 30 i.nPower &&
    sliderWithin 3 200 i.maxIter

/-- The Resolution value of the frame is a 32-bit `int`. -/
def FrameInput.resolutionIsInt32 (i : FrameInput) : Bool :=
  sliderWithin (-2147483648) 2147483647 i.resolution

/-- Validity of a parameter record as the specification states it:
`width, height > 0`, `n ≥ 2`, `max_iter ≥ 1`. -/
def ParamsValid (p : FractalParams) : Prop :=
  0 < p.width ∧ 0 < p.height ∧ 2 ≤ p.n ∧ 1 ≤ p.max_iter

/-- Whether the render step that follows the frames `inputs` has been asked
for while auto render is off: it is the first iteration (`needs_render` starts
as true) or "Render Now" was pressed in the frame just before. -/
def renderRequested (inputs : List FrameInput) : Bool :=
  match inputs.getLast? with
  | none => true
  | some b => b.renderNow

/-- A colour function used for concrete runs: every pixel is 0. -/
def blackPixel : PixelFn := fun _ _ _ _ _ _ => 0

/-- Two frames used for concrete runs: the first switches auto render on and
moves every slider to the low end of its range, the second changes nothing. -/
def sampleFrames : List FrameInput :=
  [{ checkbox := true, resolution := some 256, nPower := some 2, maxIter := some 3 }, {}]

/-! ## The Newton iterator, modelled from the specification -/

/-- Modelled from the spec: a complex coordinate (section 3).  The kernel
source is absent; exact rationals stand for the floating-point pair. -/
structure Cplx where
  re : ℚ
  im : ℚ
deriving DecidableEq

/-- Result record `IterationResult` of section 3; `none` is the sentinel NONE. -/
structure IterationResult where
  root_index : Option Nat
  iterations : Nat
deriving DecidableEq

/-- Complex subtraction. -/
def Cplx.sub (a b : Cplx) : Cplx := ⟨a.re - b.re, a.im - b.im⟩

/-- Complex multiplication. -/
def Cplx.mul (a b : Cplx) : Cplx := ⟨a.re * b.re - a.im * b.im, a.re * b.im + a.im * b.re⟩

/-- Power with a natural exponent by repeated multiplication. -/
def Cplx.npow (z : Cplx) : Nat → Cplx
  | 0 => ⟨1, 0⟩
  | k + 1 => Cplx.mul (Cplx.npow z k) z

/-- Squared modulus. -/
def Cplx.normSq (a : Cplx) : ℚ := a.re * a.re + a.im * a.im

/-- Complex division; `none` is the division fault of a zero divisor. -/
def Cplx.div (a b : Cplx) : Option Cplx :=
  if Cplx.normSq b = 0 then none
  else some ⟨(a.re * b.re + a.im * b.im) / Cplx.normSq b,
             (a.im * b.re - a.re * b.im) / Cplx.normSq b⟩

/-- Test `|w| < tol`, written with squares. -/
def withinTol (tol : ℚ) (w : Cplx) : Bool :=
  decide (0 < tol) && decide (Cplx.normSq w < tol * tol)

/-- Value `f(z) = z^n - 1`. -/
def newtonF (n : Nat) (z : Cplx) : Cplx := Cplx.sub (Cplx.npow z n) ⟨1, 0⟩

/-- Value `f'(z) = n * z^(n-1)`. -/
def newtonDeriv (n : Nat) (z : Cplx) : Cplx := Cplx.mul ⟨(n : ℚ), 0⟩ (Cplx.npow z (n - 1))

/-- Modelled from the spec: the loop of the Complex Newton Iterator (section
4.1) with `remaining` iterations left.  Each round checks convergence
(`|z^n - 1| < tol`) first and exhaustion second; a zero derivative is
immediate non-convergence; otherwise `z` moves to `z - f(z)/f'(z)`.  The
outer `none` is a propagated division fault.  The nearest-root classifier is
the parameter `classify`. -/
def iterateFrom (classify : Cplx → Nat → Nat) (tol : ℚ) (n max_iter : Nat) :
    Nat → Cplx → Option IterationResult
  | remaining, z =>
    if withinTol tol (newtonF n z) then
      some ⟨some (classify z n), max_iter - remaining⟩
    else
      match remaining with
      | 0 => some ⟨none, max_iter⟩
      | r + 1 =>
        if newtonDeriv n z = ⟨0, 0⟩ then some ⟨none, max_iter - (r + 1)⟩
        else
          match Cplx.div (newtonF n z) (newtonDeriv n z) with
          | none => none
          | some q => iterateFrom classify tol n max_iter r (Cplx.sub z q)

/-- Modelled from the spec: `iterate(c, n, max_iter)` of section 4.1, started
at `z = c` with `max_iter` iterations available. -/
def iterate (classify : Cplx → Nat → Nat) (tol : ℚ) (c : Cplx) (n max_iter : Nat) :
    Option IterationResult :=
  iterateFrom classify tol n max_iter max_iter c

/-! ## Lemmas on machine arithmetic and the output buffer -/

theorem size_t_cast (a : Int) : ((size_t a : Nat) : Int) = a % 18446744073709551616 := by
  unfold size_t SIZE_MOD
  rw [Int.toNat_of_nonneg]
  · norm_num
  · exact Int.emod_nonneg _ (by norm_num)

theorem size_mul_exact (a b : Int) (h0 : 0 ≤ a * b) (h1 : a * b < 2 ^ 64) :
    ((size_mul (size_t a) (size_t b) : Nat) : Int) = a * b := by
  have hlit : ((2 : Int) ^ 64) = 18446744073709551616 := by norm_num
  rw [hlit] at h1
  unfold size_mul SIZE_MOD
  push_cast
  rw [size_t_cast, size_t_cast, ← Int.mul_emod]
  exact Int.emod_eq_of_lt h0 h1

theorem size_mul_pos_exact (w h : Int) (hw : 0 < w) (hw2 : w < 2 ^ 31) (hh : 0 < h)
    (hh2 : h < 2 ^ 31) : size_mul (size_t w) (size_t h) = w.toNat * h.toNat := by
  have h0 : 0 ≤ w * h := by positivity
  have h1 : w * h < 2 ^ 64 := by nlinarith
  have key := size_mul_exact w h h0 h1
  have e : ((w.toNat * h.toNat : Nat) : Int) = w * h := by
    push_cast
    rw [Int.toNat_of_nonneg hw.le, Int.toNat_of_nonneg hh.le]
  exact Int.ofNat_inj.mp (key.trans e.symm)

theorem writeRow_length (f : Nat → Nat → Nat) (w py k : Nat) (out : List Nat) :
    (writeRow f w py k out).length = out.length := by
  induction k with
  | zero => rfl
  | succ k ih => simp [writeRow, ih]

theorem writeRows_length (f : Nat → Nat → Nat) (w k : Nat) (out : List Nat) :
    (writeRows f w k out).length = out.length := by
  induction k with
  | zero => rfl
  | succ k ih => simp [writeRows, writeRow_length, ih]

theorem ispc_render_length (pixel : PixelFn) (width height n max_iter : Int) (out : List Nat) :
    (ispc.render pixel width height n max_iter out).length = out.length :=
  writeRows_length _ _ _ _

theorem writeRow_getElem? (f : Nat → Nat → Nat) (w py k : Nat) (out : List Nat) (i : Nat) :
    (writeRow f w py k out)[i]? =
      if py * w ≤ i ∧ i < py * w + k ∧ i < out.length then some (f (i - py * w) py % 2 ^ 32)
      else out[i]? := by
  induction k with
  | zero =>
    show out[i]? = _
    rw [if_neg]
    intro h
    omega
  | succ k ih =>
    simp only [writeRow, List.getElem?_set, writeRow_length, ih]
    by_cases hi : py * w + k = i
    · subst hi
      by_cases hl : py * w + k < out.length
      · simp [hl]
      · have hn : out[py * w + k]? = none := List.getElem?_eq_none (Nat.le_of_not_lt hl)
        simp [hl, hn]
    · simp only [hi, if_false]
      by_cases c : py * w ≤ i ∧ i < py * w + k ∧ i < out.length
      · have c2 : py * w ≤ i ∧ i < py * w + (k + 1) ∧ i < out.length := ⟨c.1, by omega, c.2.2⟩
        rw [if_pos c, if_pos c2]
      · have c2 : ¬ (py * w ≤ i ∧ i < py * w + (k + 1) ∧ i < out.length) := by
          intro h
          exact c ⟨h.1, by omega, h.2.2⟩
        rw [if_neg c, if_neg c2]

theorem writeRows_getElem? (f : Nat → Nat → Nat) (w k : Nat) (out : List Nat) (i : Nat) :
    (writeRows f w k out)[i]? =
      if i < k * w ∧ i < out.length then some (f (i % w) (i / w) % 2 ^ 32) else out[i]? := by
  induction k with
  | zero => simp [writeRows]
  | succ k ih =>
    simp only [writeRows, writeRow_getElem?, writeRows_length, ih]
    by_cases c : k * w ≤ i ∧ i < k * w + w ∧ i < out.length
    · obtain ⟨c1, c2, c3⟩ := c
      have hlt : i < (k + 1) * w := by rw [Nat.add_mul, Nat.one_mul]; exact c2
      have hdiv : i / w = k := Nat.div_eq_of_lt_le c1 hlt
      have hmod : i % w = i - k * w := by
        have := Nat.div_add_mod i w
        rw [hdiv, Nat.mul_comm] at this
        omega
      rw [if_pos ⟨c1, c2, c3⟩, if_pos ⟨hlt, c3⟩, hdiv, hmod]
    · rw [if_neg c]
      by_cases d : i < k * w ∧ i < out.length
      · have d2 : i < (k + 1) * w ∧ i < out.length := by
          refine ⟨?_, d.2⟩
          rw [Nat.add_mul, Nat.one_mul]
          omega
        rw [if_pos d, if_pos d2]
      · have d2 : ¬ (i < (k + 1) * w ∧ i < out.length) := by
          intro h
          have h1 : i < k * w + w := by
            have := h.1
            rw [Nat.add_mul, Nat.one_mul] at this
            exact this
          by_cases e : i < k * w
          · exact d ⟨e, h.2⟩
          · exact c ⟨Nat.le_of_not_lt e, h1, h.2⟩
        rw [if_neg d, if_neg d2]

/-- The kernel overwrites a buffer of exactly `width * height` entries
completely: entry `i` is the colour of pixel `(i % width, i / width)`. -/
theorem writeRows_full (f : Nat → Nat → Nat) (w h : Nat) (out : List Nat)
    (hlen : out.length = h * w) (i : Nat) :
    (writeRows f w h out)[i]? =
      if i < h * w then some (f (i % w) (i / w) % 2 ^ 32) else none := by
  rw [writeRows_getElem?]
  by_cases c : i < h * w
  · rw [if_pos ⟨c, by omega⟩, if_pos c]
  · rw [if_neg (fun hc => c hc.1), if_neg c]
    exact List.getElem?_eq_none (by omega)

/-! ## renderFractalCpu -/

theorem resize_some (v : List Nat) (k : Nat) (b : Bool) (r : List Nat)
    (h : resize v k b = some r) :
    k ≤ VECTOR_MAX_SIZE ∧ r = v.take k ++ List.replicate (k - v.length) 0 ∧ r.length = k := by
  unfold resize at h
  split_ifs at h with h1 h2
  have e : r = v.take k ++ List.replicate (k - v.length) 0 := (Option.some.inj h).symm
  refine ⟨Nat.le_of_not_lt h1, e, ?_⟩
  rw [e]
  simp only [List.length_append, List.length_take, List.length_replicate]
  omega

theorem resize_no_bad_alloc (v : List Nat) (k : Nat) (h : k ≤ VECTOR_MAX_SIZE) :
    resize v k false = some (v.take k ++ List.replicate (k - v.length) 0) := by
  unfold resize
  rw [if_neg (Nat.not_lt.mpr h), if_neg (by simp)]

theorem resize_length_error (v : List Nat) (k : Nat) (b : Bool) (h : VECTOR_MAX_SIZE < k) :
    resize v k b = none := by
  unfold resize
  rw [if_pos h]

theorem resize_bad_alloc (v : List Nat) (k : Nat) (h : v.length < k) :
    resize v k true = none := by
  unfold resize
  split_ifs with h1 h2
  · rfl
  · rfl
  · exact absurd ⟨rfl, h⟩ h2

theorem renderFractalCpu_some (pixel : PixelFn) (b : Bool) (p : FractalParams)
    (rgba r : List Nat) (h : renderFractalCpu pixel b p rgba = some r) :
    size_mul (size_t p.width) (size_t p.height) ≤ VECTOR_MAX_SIZE ∧
      r.length = size_mul (size_t p.width) (size_t p.height) ∧
      r = ispc.render pixel p.width p.height p.n p.max_iter
        (rgba.take (size_mul (size_t p.width) (size_t p.height)) ++
          List.replicate (size_mul (size_t p.width) (size_t p.height) - rgba.length) 0) := by
  unfold renderFractalCpu at h
  cases hz : resize rgba (size_mul (size_t p.width) (size_t p.height)) b with
  | none => rw [hz] at h; exact absurd h (by simp)
  | some r1 =>
    rw [hz] at h
    obtain ⟨h1, h2, h3⟩ := resize_some _ _ _ _ hz
    have e : r = ispc.render pixel p.width p.height p.n p.max_iter r1 := (Option.some.inj h).symm
    refine ⟨h1, ?_, ?_⟩
    · rw [e, ispc_render_length, h3]
    · rw [e, h2]

theorem renderFractalCpu_no_bad_alloc (pixel : PixelFn) (p : FractalParams) (rgba : List Nat)
    (h : size_mul (size_t p.width) (size_t p.height) ≤ VECTOR_MAX_SIZE) :
    ∃ r, renderFractalCpu pixel false p rgba = some r := by
  unfold renderFractalCpu
  rw [resize_no_bad_alloc _ _ h]
  exact ⟨_, rfl⟩

theorem renderFractalCpu_length_error (pixel : PixelFn) (b : Bool) (p : FractalParams)
    (rgba : List Nat) (h : VECTOR_MAX_SIZE < size_mul (size_t p.width) (size_t p.height)) :
    renderFractalCpu pixel b p rgba = none := by
  unfold renderFractalCpu
  rw [resize_length_error _ _ _ h]

theorem isSome_elim {α : Type} (o : Option α) (h : o.isSome = true) : ∃ r, o = some r := by
  cases o with
  | none => exact absurd h (by simp)
  | some r => exact ⟨r, rfl⟩

/-- The buffers of two calls that return are equal when the size is the exact
product: each entry is the colour of its pixel. -/
theorem renderFractalCpu_some_eq (pixel : PixelFn) (p : FractalParams) (b1 b2 : Bool)
    (rgba1 rgba2 r1 r2 : List Nat)
    (hsz : size_mul (size_t p.width) (size_t p.height) = p.width.toNat * p.height.toNat)
    (h1 : renderFractalCpu pixel b1 p rgba1 = some r1)
    (h2 : renderFractalCpu pixel b2 p rgba2 = some r2) : r1 = r2 := by
  have e1 := (renderFractalCpu_some _ _ _ _ _ h1).2.2
  have e2 := (renderFractalCpu_some _ _ _ _ _ h2).2.2
  have hl : ∀ v : List Nat,
      (v.take (size_mul (size_t p.width) (size_t p.height)) ++
        List.replicate (size_mul (size_t p.width) (size_t p.height) - v.length) 0).length =
        p.height.toNat * p.width.toNat := by
    intro v
    simp only [List.length_append, List.length_take, List.length_replicate]
    rw [hsz, Nat.mul_comm p.width.toNat]
    omega
  rw [e1, e2]
  apply List.ext_getElem?
  intro i
  unfold ispc.render
  rw [writeRows_full _ _ _ _ (hl rgba1), writeRows_full _ _ _ _ (hl rgba2)]

/-- C1 as stated fails: at `width = height = 2147483647` the `size_t` product
4611686014132420609 has not wrapped, but it exceeds `max_size()`, so `resize`
throws and the vector does not get `width * height` entries. -/
theorem renderFractalCpu_throws_at_int_max :
    renderFractalCpu blackPixel false ⟨2147483647, 2147483647, 5, 60⟩ [7] = none ∧
      size_mul (size_t 2147483647) (size_t 2147483647) = 4611686014132420609 ∧
      VECTOR_MAX_SIZE < 4611686014132420609 := by
  have e : size_mul (size_t 2147483647) (size_t 2147483647) = 4611686014132420609 := by decide
  have m : VECTOR_MAX_SIZE < 4611686014132420609 := by decide
  refine ⟨renderFractalCpu_length_error _ _ _ _ ?_, e, m⟩
  show VECTOR_MAX_SIZE < size_mul (size_t 2147483647) (size_t 2147483647)
  rw [e]
  exact m

/-- C1 amended: for positive `width` and `height` in the `int` range the
`size_t` product is the exact product (no wrap); whenever the call returns,
the vector holds exactly `width * height` entries whatever it held before; the
call returns when `width * height` is at most `max_size()` and the allocator
does not refuse; above `max_size()` it throws, and so it does when the vector
has to grow and the allocator refuses. -/
theorem renderFractalCpu_size (pixel : PixelFn) (p : FractalParams) (rgba : List Nat)
    (hw : 0 < p.width) (hw2 : p.width < 2 ^ 31) (hh : 0 < p.height) (hh2 : p.height < 2 ^ 31) :
    size_mul (size_t p.width) (size_t p.height) = p.width.toNat * p.height.toNat ∧
      (∀ b r, renderFractalCpu pixel b p rgba = some r →
        ((r.length : Nat) : Int) = p.width * p.height) ∧
      (p.width * p.height ≤ (VECTOR_MAX_SIZE : Int) →
        ∃ r, renderFractalCpu pixel false p rgba = some r ∧
          ((r.length : Nat) : Int) = p.width * p.height) ∧
      ((VECTOR_MAX_SIZE : Int) < p.width * p.height →
        ∀ b, renderFractalCpu pixel b p rgba = none) ∧
      ((rgba.length : Int) < p.width * p.height →
        renderFractalCpu pixel true p rgba = none) := by
  have hx : ((size_mul (size_t p.width) (size_t p.height) : Nat) : Int) = p.width * p.height :=
    size_mul_exact _ _ (by positivity) (by nlinarith)
  have hlen : ∀ b r, renderFractalCpu pixel b p rgba = some r →
      ((r.length : Nat) : Int) = p.width * p.height := by
    intro b r h
    rw [(renderFractalCpu_some _ _ _ _ _ h).2.1]
    exact hx
  refine ⟨size_mul_pos_exact _ _ hw hw2 hh hh2, hlen, ?_, ?_, ?_⟩
  · intro hle
    rw [← hx] at hle
    obtain ⟨r, hr⟩ := renderFractalCpu_no_bad_alloc pixel p rgba (Int.ofNat_le.mp hle)
    exact ⟨r, hr, hlen _ _ hr⟩
  · intro hlt b
    rw [← hx] at hlt
    exact renderFractalCpu_length_error _ _ _ _ (Int.ofNat_lt.mp hlt)
  · intro hlt
    rw [← hx] at hlt
    unfold renderFractalCpu
    rw [resize_bad_alloc _ _ (Int.ofNat_lt.mp hlt)]

theorem renderFractalCpu_size_witness :
    ∃ r, renderFractalCpu blackPixel false ⟨256, 256, 3, 60⟩ [7, 7, 7] = some r ∧
      ((r.length : Nat) : Int) = 256 * 256 :=
  (renderFractalCpu_size blackPixel ⟨256, 256, 3, 60⟩ [7, 7, 7]
    (by decide) (by decide) (by decide) (by decide)).2.2.1 (by decide)

/-- C6: for valid parameters two calls of `renderFractalCpu` with the same
`p` that return give identical buffers, whatever each buffer held before and
whatever the allocator did: every one of the `width * height` entries is
overwritten with a function of `p`.  Within `max_size()`, and with an
allocator that does not refuse, both calls return. -/
theorem renderFractalCpu_deterministic (pixel : PixelFn) (p : FractalParams)
    (rgba1 rgba2 : List Nat)
    (hw : 0 < p.width) (hw2 : p.width < 2 ^ 31) (hh : 0 < p.height) (hh2 : p.height < 2 ^ 31) :
    (∀ b1 b2 r1 r2, renderFractalCpu pixel b1 p rgba1 = some r1 →
        renderFractalCpu pixel b2 p rgba2 = some r2 → r1 = r2) ∧
      (p.width * p.height ≤ (VECTOR_MAX_SIZE : Int) →
        (renderFractalCpu pixel false p rgba1).isSome = true ∧
          renderFractalCpu pixel false p rgba1 = renderFractalCpu pixel false p rgba2) := by
  have hsz := size_mul_pos_exact _ _ hw hw2 hh hh2
  have hx : ((size_mul (size_t p.width) (size_t p.height) : Nat) : Int) = p.width * p.height :=
    size_mul_exact _ _ (by positivity) (by nlinarith)
  refine ⟨fun b1 b2 r1 r2 h1 h2 => renderFractalCpu_some_eq pixel p b1 b2 _ _ _ _ hsz h1 h2, ?_⟩
  intro hle
  rw [← hx] at hle
  obtain ⟨r1, h1⟩ := renderFractalCpu_no_bad_alloc pixel p rgba1 (Int.ofNat_le.mp hle)
  obtain ⟨r2, h2⟩ := renderFractalCpu_no_bad_alloc pixel p rgba2 (Int.ofNat_le.mp hle)
  refine ⟨by rw [h1]; rfl, ?_⟩
  rw [h1, h2, renderFractalCpu_some_eq pixel p false false _ _ _ _ hsz h1 h2]

theorem renderFractalCpu_deterministic_witness :
    renderFractalCpu blackPixel false ⟨256, 256, 3, 60⟩ [] =
      renderFractalCpu blackPixel false ⟨256, 256, 3, 60⟩ [1, 2, 3] :=
  ((renderFractalCpu_deterministic blackPixel ⟨256, 256, 3, 60⟩ [] [1, 2, 3]
    (by decide) (by decide) (by decide) (by decide)).2 (by decide)).2

/-! ## Steps of the main loop -/

theorem createOrResizeTexture_dims (img : GLImage) (w h : Int) :
    (createOrResizeTexture img w h).w = w ∧ (createOrResizeTexture img w h).h = h := by
  unfold createOrResizeTexture
  by_cases c : (if img.tex = 0 then { img with tex := glGenTextures } else img).w = w ∧
      (if img.tex = 0 then { img with tex := glGenTextures } else img).h = h
  · simp only [c, and_self, if_true]
  · simp only [c, if_false, and_self]

theorem kernelCalls_append (a b : List Event) :
    kernelCalls (a ++ b) = kernelCalls a ++ kernelCalls b := by
  induction a with
  | nil => rfl
  | cons e es ih =>
    cases e with
    | render p => simp [kernelCalls, ih]
    | upload w h d => simp [kernelCalls, ih]

theorem controlsStep_trace (i : FrameInput) (s : MainState) :
    (controlsStep i s).trace = s.trace := rfl

theorem controlsStep_glimg (i : FrameInput) (s : MainState) :
    (controlsStep i s).glimg = s.glimg := rfl


theorem sliderWithin_some (lo hi v : Int) (h : sliderWithin lo hi (some v) = true) :
    lo ≤ v ∧ v ≤ hi := by
  simpa [sliderWithin] using h

theorem controlsStep_params_valid (i : FrameInput) (s : MainState)
    (hp : ParamsValid s.params) (hi : i.inDeclaredRange = true) :
    ParamsValid (controlsStep i s).params := by
  obtain ⟨h1, h2, h3, h4⟩ := hp
  simp only [FrameInput.inDeclaredRange, Bool.and_eq_true] at hi
  obtain ⟨⟨hr, hn⟩, hm⟩ := hi
  unfold ParamsValid controlsStep
  rcases hres : i.resolution with _ | r <;> rcases hnp : i.nPower with _ | k <;>
    rcases hmi : i.maxIter with _ | m <;> simp only [] <;>
    rw [hres] at hr <;> rw [hnp] at hn <;> rw [hmi] at hm <;>
    (try have hr2 := sliderWithin_some _ _ _ hr) <;>
    (try have hn2 := sliderWithin_some _ _ _ hn) <;>
    (try have hm2 := sliderWithin_some _ _ _ hm) <;>
    refine ⟨?_, ?_, ?_, ?_⟩ <;> omega

theorem controlsStep_width_int32 (i : FrameInput) (s : MainState)
    (hp : s.params.height = s.params.width ∧
      -2147483648 ≤ s.params.width ∧ s.params.width ≤ 2147483647)
    (hi : i.resolutionIsInt32 = true) :
    (controlsStep i s).params.height = (controlsStep i s).params.width ∧
      -2147483648 ≤ (controlsStep i s).params.width ∧
      (controlsStep i s).params.width ≤ 2147483647 := by
  unfold FrameInput.resolutionIsInt32 at hi
  unfold controlsStep
  rcases hres : i.resolution with _ | r <;> rcases i.nPower with _ | k <;>
    rcases i.maxIter with _ | m <;> simp only [] <;> rw [hres] at hi <;>
    first
      | exact hp
      | exact ⟨trivial, sliderWithin_some _ _ _ hi⟩


theorem kernelCalls_afterRender (s : MainState) (r : List Nat) :
    kernelCalls (afterRender s r).trace = kernelCalls s.trace ++ [s.params] := by
  show kernelCalls (s.trace ++ _) = _
  rw [kernelCalls_append]
  rfl

theorem atUpload_some (pixel : PixelFn) (b : Bool) (s u : MainState)
    (h : atUpload pixel b s = some u) :
    ∃ r, renderFractalCpu pixel b s.params s.rgba = some r ∧
      u = { s with
        glimg := createOrResizeTexture s.glimg s.params.width s.params.height
        rgba := r
        trace := s.trace ++ [Event.render s.params] } := by
  unfold atUpload callRenderFractalCpu at h
  cases hz : renderFractalCpu pixel b s.params s.rgba with
  | none =>
    have hz2 : renderFractalCpu pixel b (callCreateOrResizeTexture s).params
        (callCreateOrResizeTexture s).rgba = none := hz
    rw [hz2] at h
    exact absurd h (by simp)
  | some r =>
    have hz2 : renderFractalCpu pixel b (callCreateOrResizeTexture s).params
        (callCreateOrResizeTexture s).rgba = some r := hz
    rw [hz2] at h
    exact ⟨r, rfl, (Option.some.inj h).symm⟩

theorem atUpload_of_some (pixel : PixelFn) (b : Bool) (s : MainState) (r : List Nat)
    (h : renderFractalCpu pixel b s.params s.rgba = some r) :
    atUpload pixel b s = some { s with
        glimg := createOrResizeTexture s.glimg s.params.width s.params.height
        rgba := r
        trace := s.trace ++ [Event.render s.params] } := by
  have hz2 : renderFractalCpu pixel b (callCreateOrResizeTexture s).params
      (callCreateOrResizeTexture s).rgba = some r := h
  unfold atUpload callRenderFractalCpu
  rw [hz2]
  rfl

theorem atUpload_of_none (pixel : PixelFn) (b : Bool) (s : MainState)
    (h : renderFractalCpu pixel b s.params s.rgba = none) : atUpload pixel b s = none := by
  have hz2 : renderFractalCpu pixel b (callCreateOrResizeTexture s).params
      (callCreateOrResizeTexture s).rgba = none := h
  unfold atUpload callRenderFractalCpu
  rw [hz2]

/-- A render branch whose call of `renderFractalCpu` returns `r` ends in
`afterRender s r`. -/
theorem renderStep_render (pixel : PixelFn) (b : Bool) (s : MainState) (r : List Nat)
    (h : s.auto_render = true ∨ s.needs_render = true)
    (hr : renderFractalCpu pixel b s.params s.rgba = some r) :
    renderStep pixel b s = some (afterRender s r) := by
  have hd := createOrResizeTexture_dims s.glimg s.params.width s.params.height
  unfold renderStep
  rw [atUpload_of_some pixel b s r hr]
  by_cases ha : s.auto_render = true
  · rw [if_pos ha]
    simp only [callUploadImage, uploadImage, afterRender, hd.1, hd.2, ha, Bool.true_and,
      List.append_assoc, List.singleton_append]
  · have hn : s.needs_render = true := h.resolve_left ha
    have ha2 : s.auto_render = false := by
      cases hx : s.auto_render
      · rfl
      · exact absurd hx ha
    rw [if_neg ha, if_pos hn]
    simp only [callUploadImage, uploadImage, afterRender, hd.1, hd.2, ha2, Bool.false_and,
      List.append_assoc, List.singleton_append]

/-- A render branch whose call of `renderFractalCpu` throws ends the program. -/
theorem renderStep_throw (pixel : PixelFn) (b : Bool) (s : MainState)
    (h : s.auto_render = true ∨ s.needs_render = true)
    (hr : renderFractalCpu pixel b s.params s.rgba = none) :
    renderStep pixel b s = none := by
  unfold renderStep
  rw [atUpload_of_none pixel b s hr]
  by_cases ha : s.auto_render = true
  · rw [if_pos ha]
  · rw [if_neg ha, if_pos (h.resolve_left ha)]

theorem renderStep_idle (pixel : PixelFn) (b : Bool) (s : MainState)
    (ha : s.auto_render = false) (hn : s.needs_render = false) :
    renderStep pixel b s = some s := by
  unfold renderStep
  simp [ha, hn]

theorem flags_cases (s : MainState) :
    (s.auto_render = false ∧ s.needs_render = false) ∨
      (s.auto_render = true ∨ s.needs_render = true) := by
  cases s.auto_render <;> cases s.needs_render <;> simp

/-- The two ways a render step can complete. -/
theorem renderStep_cases (pixel : PixelFn) (b : Bool) (s s1 : MainState)
    (h : renderStep pixel b s = some s1) :
    (s.auto_render = false ∧ s.needs_render = false ∧ s1 = s) ∨
      ((s.auto_render = true ∨ s.needs_render = true) ∧
        ∃ r, renderFractalCpu pixel b s.params s.rgba = some r ∧ s1 = afterRender s r) := by
  rcases flags_cases s with ⟨ha, hn⟩ | hf
  · rw [renderStep_idle pixel b s ha hn] at h
    exact Or.inl ⟨ha, hn, (Option.some.inj h).symm⟩
  · right
    refine ⟨hf, ?_⟩
    cases hz : renderFractalCpu pixel b s.params s.rgba with
    | none =>
      rw [renderStep_throw pixel b s hf hz] at h
      exact absurd h (by simp)
    | some r =>
      rw [renderStep_render pixel b s r hf hz] at h
      exact ⟨r, rfl, (Option.some.inj h).symm⟩

theorem renderStep_params (pixel : PixelFn) (b : Bool) (s s1 : MainState)
    (h : renderStep pixel b s = some s1) : s1.params = s.params := by
  rcases renderStep_cases pixel b s s1 h with ⟨_, _, e⟩ | ⟨_, r, _, e⟩
  · rw [e]
  · rw [e]; rfl

theorem renderStep_auto_render (pixel : PixelFn) (b : Bool) (s s1 : MainState)
    (h : renderStep pixel b s = some s1) : s1.auto_render = s.auto_render := by
  rcases renderStep_cases pixel b s s1 h with ⟨_, _, e⟩ | ⟨_, r, _, e⟩
  · rw [e]
  · rw [e]; rfl

theorem renderStep_kernelCalls (pixel : PixelFn) (b : Bool) (s s1 : MainState)
    (h : renderStep pixel b s = some s1) :
    kernelCalls s1.trace = kernelCalls s.trace ++
      (if s.auto_render = true ∨ s.needs_render = true then [s.params] else []) := by
  rcases renderStep_cases pixel b s s1 h with ⟨ha, hn, e⟩ | ⟨hf, r, _, e⟩
  · rw [e, if_neg (by simp [ha, hn]), List.append_nil]
  · rw [e, if_pos hf, kernelCalls_afterRender]

theorem renderStep_clears (pixel : PixelFn) (b : Bool) (s s1 : MainState)
    (hs : s.needs_render = true → s.auto_render = false)
    (h : renderStep pixel b s = some s1) : s1.needs_render = false := by
  rcases renderStep_cases pixel b s s1 h with ⟨_, hn, e⟩ | ⟨_, r, _, e⟩
  · rw [e]; exact hn
  · rw [e]
    show (s.auto_render && s.needs_render) = false
    cases hn : s.needs_render
    · simp
    · rw [hs hn]; rfl

theorem frame_some (pixel : PixelFn) (s s1 : MainState) (i : FrameInput)
    (h : frame pixel s i = some s1) :
    ∃ r, renderStep pixel i.badAlloc s = some r ∧ s1 = controlsStep i r := by
  unfold frame at h
  cases hz : renderStep pixel i.badAlloc s with
  | none => rw [hz] at h; exact absurd h (by simp)
  | some r => rw [hz] at h; exact ⟨r, rfl, (Option.some.inj h).symm⟩

theorem frame_of_some (pixel : PixelFn) (s r : MainState) (i : FrameInput)
    (h : renderStep pixel i.badAlloc s = some r) :
    frame pixel s i = some (controlsStep i r) := by
  unfold frame
  rw [h]

/-! ## Reachable states -/

theorem runFrom_append (pixel : PixelFn) (l m : List FrameInput) (s : MainState) :
    runFrom pixel s (l ++ m) = (runFrom pixel s l).bind (fun s1 => runFrom pixel s1 m) := by
  induction l generalizing s with
  | nil => rfl
  | cons i rest ih =>
    show (match frame pixel s i with
      | none => none
      | some s1 => runFrom pixel s1 (rest ++ m)) = _
    cases hz : frame pixel s i with
    | none => simp [runFrom, hz]
    | some s1 => simp [runFrom, hz, ih]

theorem run_concat (pixel : PixelFn) (l : List FrameInput) (i : FrameInput) :
    run pixel (l ++ [i]) = (run pixel l).bind (fun s => frame pixel s i) := by
  unfold run
  rw [runFrom_append]
  congr 1
  funext s
  show (match frame pixel s i with
    | none => none
    | some s1 => some s1) = frame pixel s i
  cases frame pixel s i <;> rfl

theorem run_concat_some (pixel : PixelFn) (l : List FrameInput) (i : FrameInput)
    (s : MainState) (h : run pixel (l ++ [i]) = some s) :
    ∃ s0 r, run pixel l = some s0 ∧ renderStep pixel i.badAlloc s0 = some r ∧
      s = controlsStep i r := by
  rw [run_concat] at h
  cases hz : run pixel l with
  | none => rw [hz] at h; exact absurd h (by simp)
  | some s0 =>
    rw [hz] at h
    obtain ⟨r, hr, e⟩ := frame_some pixel s0 s i h
    exact ⟨s0, r, rfl, hr, e⟩

/-- Induction over the frames of a run: a property of the initial state that
every completed frame with an admissible input preserves holds at the top of
the loop. -/
theorem run_induction (pixel : PixelFn) (P : MainState → Prop) (Q : FrameInput → Prop)
    (h0 : P initState)
    (hstep : ∀ s i r, P s → Q i → renderStep pixel i.badAlloc s = some r →
      P (controlsStep i r)) :
    ∀ inputs : List FrameInput, (∀ i ∈ inputs, Q i) →
      ∀ s, run pixel inputs = some s → P s := by
  intro inputs
  induction inputs using List.reverseRecOn with
  | nil =>
    intro _ s h
    have e : s = initState := (Option.some.inj h).symm
    rw [e]; exact h0
  | append_singleton l i ih =>
    intro hq s h
    obtain ⟨s0, r, h0run, hr, e⟩ := run_concat_some pixel l i s h
    rw [e]
    exact hstep s0 i r (ih (fun j hj => hq j (List.mem_append_left _ hj)) s0 h0run)
      (hq i (List.mem_append_right _ (List.mem_singleton_self i))) hr


/-! ## When the kernel runs -/

/-- C3 as stated fails: with auto render off, the n slider is moved from 5 to 7
in the first frame; the render step of the next frame calls nothing, and
the parameters last passed to the kernel (n = 5) differ from `params` (n = 7). -/
theorem slider_change_not_rendered :
    (run blackPixel [{ nPower := some 7 }]).map
        (fun s => (s.params, s.auto_render, s.needs_render)) =
        some (⟨1024, 1024, 7, 60⟩, false, false) ∧
      ((run blackPixel [{ nPower := some 7 }]).bind (renderStep blackPixel false)).map
        (fun s => ((kernelCalls s.trace).getLast?, s.params)) =
        some (some ⟨1024, 1024, 5, 60⟩, ⟨1024, 1024, 7, 60⟩) ∧
      ((run blackPixel [{ nPower := some 7 }]).bind (renderStep blackPixel false)).map
        (fun s => kernelCalls s.trace) =
        (run blackPixel [{ nPower := some 7 }]).map (fun s => kernelCalls s.trace) ∧
      (some (⟨1024, 1024, 5, 60⟩ : FractalParams)) ≠ some ⟨1024, 1024, 7, 60⟩ :=
  ⟨rfl, rfl, rfl, by decide⟩

/-- C3 amended: after a frame (in which sliders may have changed `params`),
if the next render step sees `auto_render` on or `needs_render` set, it calls
`renderFractalCpu` with the parameters the controls left; when that call
returns, the kernel has been called with them, so that after the render step
the parameters last passed to the kernel equal the current `params`; when
`resize` throws inside the call, the program ends there. -/
theorem render_follows_params_when_requested (pixel : PixelFn) (s s1 : MainState)
    (i : FrameInput) (b : Bool) (hf : frame pixel s i = some s1)
    (h : s1.auto_render = true ∨ s1.needs_render = true) :
    (∀ r, renderFractalCpu pixel b s1.params s1.rgba = some r →
        ∃ s0 s2, renderStep pixel i.badAlloc s = some s0 ∧ renderStep pixel b s1 = some s2 ∧
          (kernelCalls s2.trace).getLast? = some s2.params ∧
          s2.params = (controlsStep i s0).params) ∧
      (renderFractalCpu pixel b s1.params s1.rgba = none → renderStep pixel b s1 = none) := by
  refine ⟨?_, renderStep_throw pixel b s1 h⟩
  intro r hr
  obtain ⟨s0, h0, e⟩ := frame_some pixel s s1 i hf
  refine ⟨s0, afterRender s1 r, h0, renderStep_render pixel b s1 r h hr, ?_, ?_⟩
  · rw [kernelCalls_afterRender]
    exact List.getLast?_concat _
  · rw [e]; rfl

theorem render_follows_params_when_requested_witness :
    ∃ s1 s2, frame blackPixel initState { checkbox := true, nPower := some 7 } = some s1 ∧
      renderStep blackPixel false s1 = some s2 ∧
      (kernelCalls s2.trace).getLast? = some s2.params := by
  obtain ⟨s1, hf⟩ := isSome_elim
    (frame blackPixel initState { checkbox := true, nPower := some 7 }) rfl
  have ha : s1.auto_render = true := by
    obtain ⟨s0, h0, e⟩ := frame_some blackPixel initState s1 _ hf
    have a0 := renderStep_auto_render blackPixel _ initState s0 h0
    rw [e]
    show (if true = true then !s0.auto_render else s0.auto_render) = true
    rw [if_pos rfl, a0]
    rfl
  have hp : s1.params = ⟨1024, 1024, 7, 60⟩ := by
    obtain ⟨s0, h0, e⟩ := frame_some blackPixel initState s1 _ hf
    have p0 := renderStep_params blackPixel _ initState s0 h0
    rw [e]
    show ({ s0.params with n := 7 } : FractalParams) = _
    rw [p0]
    rfl
  have T := render_follows_params_when_requested blackPixel initState s1
    { checkbox := true, nPower := some 7 } false hf (Or.inl ha)
  obtain ⟨r, hr⟩ := renderFractalCpu_no_bad_alloc blackPixel s1.params s1.rgba
    (by rw [hp]; decide)
  obtain ⟨_, s2, _, h2, h3, _⟩ := T.1 r hr
  exact ⟨s1, s2, hf, h2, h3⟩


/-! ## Rendering on request -/

theorem run_needs_render_auto_off (pixel : PixelFn) (inputs : List FrameInput) (s : MainState)
    (hrun : run pixel inputs = some s) :
    s.needs_render = true → s.auto_render = false := by
  refine run_induction pixel (fun s => s.needs_render = true → s.auto_render = false)
    (fun _ => True) (fun _ => rfl) ?_ inputs (fun _ _ => trivial) s hrun
  intro s0 i r hs _ hr
  have hc := renderStep_clears pixel _ s0 r hs hr
  simp only [controlsStep, hc]
  cases i.checkbox <;> cases r.auto_render <;> cases i.renderNow <;> simp

theorem run_needs_render (pixel : PixelFn) (inputs : List FrameInput) (s : MainState)
    (hrun : run pixel inputs = some s) :
    s.needs_render = (renderRequested inputs && !s.auto_render) := by
  rcases List.eq_nil_or_concat inputs with h | ⟨l, i, h⟩
  · subst h
    have e : s = initState := (Option.some.inj hrun).symm
    rw [e]; rfl
  · rw [List.concat_eq_append] at h
    subst h
    obtain ⟨s0, r, h0, hr, e⟩ := run_concat_some pixel l i s hrun
    have hc := renderStep_clears pixel _ s0 r (run_needs_render_auto_off pixel l s0 h0) hr
    have hq : renderRequested (l ++ [i]) = i.renderNow := by
      simp [renderRequested]
    rw [hq, e]
    simp only [controlsStep, hc]
    cases i.checkbox <;> cases r.auto_render <;> cases i.renderNow <;> simp

/-- C9 as stated fails at the first iteration: `auto_render` is false, no
frame has run (so the button was never pressed), and the render step calls
the kernel because `needs_render` starts as true. -/
theorem first_frame_renders_without_press :
    (run blackPixel []).map (fun s => (s.auto_render, kernelCalls s.trace)) = some (false, []) ∧
      ((run blackPixel []).bind (renderStep blackPixel false)).map
        (fun s => kernelCalls s.trace) = some [⟨1024, 1024, 5, 60⟩] ∧
      List.any ([] : List FrameInput) FrameInput.renderNow = false :=
  ⟨rfl, rfl, rfl⟩

/-- C9 amended: in every iteration whose render step sees `auto_render`
false, `renderFractalCpu` is called if it is the first iteration or "Render
Now" was pressed in the frame just before, and not at all otherwise; a call
that returns is exactly one kernel call with the current `params`; after the
render step `needs_render` is false. -/
theorem manual_render_only_when_requested (pixel : PixelFn) (inputs : List FrameInput)
    (s : MainState) (b : Bool) (hrun : run pixel inputs = some s)
    (h : s.auto_render = false) :
    (renderRequested inputs = false → renderStep pixel b s = some s) ∧
      (renderRequested inputs = true →
        ∀ r, renderFractalCpu pixel b s.params s.rgba = some r →
          ∃ s1, renderStep pixel b s = some s1 ∧
            kernelCalls s1.trace = kernelCalls s.trace ++ [s.params] ∧
            s1.needs_render = false) ∧
      (∀ s1, renderStep pixel b s = some s1 →
        kernelCalls s1.trace = kernelCalls s.trace ++
          (if renderRequested inputs = true then [s.params] else []) ∧
        s1.needs_render = false) := by
  have hn := run_needs_render pixel inputs s hrun
  rw [h] at hn
  simp only [Bool.not_false, Bool.and_true] at hn
  have hoff := run_needs_render_auto_off pixel inputs s hrun
  refine ⟨?_, ?_, ?_⟩
  · intro hq
    exact renderStep_idle pixel b s h (by rw [hn, hq])
  · intro hq r hr
    have hneed : s.needs_render = true := by rw [hn, hq]
    have hstep := renderStep_render pixel b s r (Or.inr hneed) hr
    exact ⟨afterRender s r, hstep, kernelCalls_afterRender s r,
      renderStep_clears pixel b s _ hoff hstep⟩
  · intro s1 h1
    refine ⟨?_, renderStep_clears pixel b s s1 hoff h1⟩
    rw [renderStep_kernelCalls pixel b s s1 h1, h, hn]
    simp

theorem manual_render_only_when_requested_witness :
    ∃ s s1, run blackPixel [{ renderNow := true }] = some s ∧
      renderStep blackPixel false s = some s1 ∧
      kernelCalls s1.trace = kernelCalls s.trace ++ [s.params] ∧
      s1.needs_render = false := by
  obtain ⟨s, hs⟩ := isSome_elim (run blackPixel [{ renderNow := true }]) rfl
  have ha : s.auto_render = false := by
    have e : (run blackPixel [{ renderNow := true }]).map (fun t => t.auto_render) =
        some false := rfl
    rw [hs] at e
    exact Option.some.inj e
  have hp : s.params = ⟨1024, 1024, 5, 60⟩ := by
    have e : (run blackPixel [{ renderNow := true }]).map (fun t => t.params) =
        some ⟨1024, 1024, 5, 60⟩ := rfl
    rw [hs] at e
    exact Option.some.inj e
  have T := manual_render_only_when_requested blackPixel [{ renderNow := true }] s false hs ha
  obtain ⟨r, hr⟩ := renderFractalCpu_no_bad_alloc blackPixel s.params s.rgba
    (by rw [hp]; decide)
  obtain ⟨s1, h1, h2, h3⟩ := T.2.1 rfl r hr
  exact ⟨s, s1, hs, h1, h2, h3⟩

/-! ## Invariants of the parameters -/

theorem controlsStep_params_in_range (i : FrameInput) (s : MainState)
    (hp : 0 < s.params.width ∧ s.params.width ≤ 4096 ∧
      0 < s.params.height ∧ s.params.height ≤ 4096)
    (hi : i.inDeclaredRange = true) :
    0 < (controlsStep i s).params.width ∧ (controlsStep i s).params.width ≤ 4096 ∧
      0 < (controlsStep i s).params.height ∧ (controlsStep i s).params.height ≤ 4096 := by
  obtain ⟨h1, h2, h3, h4⟩ := hp
  simp only [FrameInput.inDeclaredRange, Bool.and_eq_true] at hi
  obtain ⟨⟨hr, _⟩, _⟩ := hi
  unfold controlsStep
  rcases hres : i.resolution with _ | r <;> rcases i.nPower with _ | k <;>
    rcases i.maxIter with _ | m <;> simp only [] <;>
    rw [hres] at hr <;>
    (try have hr2 := sliderWithin_some _ _ _ hr) <;>
    refine ⟨?_, ?_, ?_, ?_⟩ <;> omega

theorem size_within_max (p : FractalParams)
    (hp : 0 < p.width ∧ p.width ≤ 4096 ∧ 0 < p.height ∧ p.height ≤ 4096) :
    size_mul (size_t p.width) (size_t p.height) ≤ VECTOR_MAX_SIZE := by
  obtain ⟨h1, h2, h3, h4⟩ := hp
  have hx : ((size_mul (size_t p.width) (size_t p.height) : Nat) : Int) = p.width * p.height :=
    size_mul_exact _ _ (by positivity) (by nlinarith)
  have hb : p.width * p.height ≤ 4096 * 4096 := by nlinarith
  have hm : ((4096 * 4096 : Int)) ≤ ((VECTOR_MAX_SIZE : Nat) : Int) := by decide
  have : ((size_mul (size_t p.width) (size_t p.height) : Nat) : Int) ≤
      ((VECTOR_MAX_SIZE : Nat) : Int) := by
    rw [hx]; exact le_trans hb hm
  exact Int.ofNat_le.mp this

/-- A render step whose `resize` is within `max_size()` and whose allocator
does not refuse completes. -/
theorem renderStep_completes (pixel : PixelFn) (s : MainState)
    (h : size_mul (size_t s.params.width) (size_t s.params.height) ≤ VECTOR_MAX_SIZE) :
    ∃ s1, renderStep pixel false s = some s1 := by
  rcases flags_cases s with ⟨ha, hn⟩ | hf
  · exact ⟨s, renderStep_idle pixel false s ha hn⟩
  · obtain ⟨r, hr⟩ := renderFractalCpu_no_bad_alloc pixel s.params s.rgba h
    exact ⟨afterRender s r, renderStep_render pixel false s r hf hr⟩

/-- With slider values in their declared ranges and an allocator that never
refuses, the loop never ends by an exception. -/
theorem run_in_range_completes (pixel : PixelFn) (inputs : List FrameInput)
    (hin : ∀ i ∈ inputs, i.inDeclaredRange = true) (hb : ∀ i ∈ inputs, i.badAlloc = false) :
    ∃ s, run pixel inputs = some s ∧
      (0 < s.params.width ∧ s.params.width ≤ 4096 ∧
        0 < s.params.height ∧ s.params.height ≤ 4096) := by
  induction inputs using List.reverseRecOn with
  | nil => exact ⟨initState, rfl, by decide, by decide, by decide, by decide⟩
  | append_singleton l i ih =>
    obtain ⟨s0, h0, hp⟩ := ih (fun j hj => hin j (List.mem_append_left _ hj))
      (fun j hj => hb j (List.mem_append_left _ hj))
    have hi := hin i (List.mem_append_right _ (List.mem_singleton_self i))
    have hbi := hb i (List.mem_append_right _ (List.mem_singleton_self i))
    obtain ⟨r, hr⟩ := renderStep_completes pixel s0 (size_within_max _ hp)
    rw [← hbi] at hr
    refine ⟨controlsStep i r, ?_, ?_⟩
    · rw [run_concat, h0]
      exact frame_of_some pixel s0 r i hr
    · refine controlsStep_params_in_range i r ?_ hi
      rw [renderStep_params pixel _ s0 r hr]
      exact hp

/-- C2: when every slider value lies in its declared range, every kernel call
made by the main loop, started from the default parameters, receives
`width > 0`, `height > 0`, `n ≥ 2` and `max_iter ≥ 1`; and such a run is not
ended by `std::length_error`: with an allocator that never refuses, every
frame and the next render step complete. -/
theorem kernel_never_sees_invalid_params (pixel : PixelFn) (inputs : List FrameInput)
    (hin : ∀ i ∈ inputs, i.inDeclaredRange = true) :
    (∀ s b s1, run pixel inputs = some s → renderStep pixel b s = some s1 →
        ∀ p ∈ kernelCalls s1.trace, ParamsValid p) ∧
      ((∀ i ∈ inputs, i.badAlloc = false) →
        ∃ s s1, run pixel inputs = some s ∧ renderStep pixel false s = some s1) := by
  constructor
  · intro s b s1 hrun hstep
    have inv : ParamsValid s.params ∧ ∀ p ∈ kernelCalls s.trace, ParamsValid p := by
      refine run_induction pixel
        (fun s => ParamsValid s.params ∧ ∀ p ∈ kernelCalls s.trace, ParamsValid p)
        (fun i => i.inDeclaredRange = true) ?_ ?_ inputs hin s hrun
      · refine ⟨⟨by decide, by decide, by decide, by decide⟩, ?_⟩
        intro p hp
        exact absurd hp (List.not_mem_nil p)
      · intro s0 i r ⟨hp, ht⟩ hi hr
        refine ⟨controlsStep_params_valid i _
          (by rw [renderStep_params pixel _ s0 r hr]; exact hp) hi, ?_⟩
        intro p hmem
        rw [controlsStep_trace, renderStep_kernelCalls pixel _ s0 r hr, List.mem_append] at hmem
        rcases hmem with hmem | hmem
        · exact ht p hmem
        · split_ifs at hmem
          · rw [List.mem_singleton] at hmem
            rw [hmem]; exact hp
          · exact absurd hmem (List.not_mem_nil p)
    intro p hmem
    rw [renderStep_kernelCalls pixel b s s1 hstep, List.mem_append] at hmem
    rcases hmem with hmem | hmem
    · exact inv.2 p hmem
    · split_ifs at hmem
      · rw [List.mem_singleton] at hmem
        rw [hmem]; exact inv.1
      · exact absurd hmem (List.not_mem_nil p)
  · intro hb
    obtain ⟨s, hs, hp⟩ := run_in_range_completes pixel inputs hin hb
    obtain ⟨s1, h1⟩ := renderStep_completes pixel s (size_within_max _ hp)
    exact ⟨s, s1, hs, h1⟩

theorem kernel_never_sees_invalid_params_witness :
    ∃ s s1, run blackPixel sampleFrames = some s ∧ renderStep blackPixel false s = some s1 ∧
      ∀ p ∈ kernelCalls s1.trace, ParamsValid p := by
  have T := kernel_never_sees_invalid_params blackPixel sampleFrames (by decide)
  obtain ⟨s, s1, hs, h1⟩ := T.2 (by decide)
  exact ⟨s, s1, hs, h1, T.1 s false s1 hs h1⟩


theorem controlsStep_square (i : FrameInput) (s : MainState)
    (hp : s.params.height = s.params.width) :
    (controlsStep i s).params.height = (controlsStep i s).params.width := by
  unfold controlsStep
  rcases i.resolution with _ | r <;> rcases i.nPower with _ | k <;>
    rcases i.maxIter with _ | m <;> simp only [] <;> exact hp

theorem renderStep_glimg_square (pixel : PixelFn) (b : Bool) (s s1 : MainState)
    (hp : s.params.height = s.params.width) (hg : s.glimg.h = s.glimg.w)
    (h : renderStep pixel b s = some s1) : s1.glimg.h = s1.glimg.w := by
  have hd := createOrResizeTexture_dims s.glimg s.params.width s.params.height
  rcases renderStep_cases pixel b s s1 h with ⟨_, _, e⟩ | ⟨_, r, _, e⟩
  · rw [e]; exact hg
  · rw [e]
    show (createOrResizeTexture s.glimg s.params.width s.params.height).h =
      (createOrResizeTexture s.glimg s.params.width s.params.height).w
    rw [hd.1, hd.2, hp]

theorem renderStep_calls_square (pixel : PixelFn) (b : Bool) (s s1 : MainState)
    (hp : s.params.height = s.params.width)
    (ht : ∀ p ∈ kernelCalls s.trace, p.height = p.width)
    (h : renderStep pixel b s = some s1) :
    ∀ p ∈ kernelCalls s1.trace, p.height = p.width := by
  intro p hmem
  rw [renderStep_kernelCalls pixel b s s1 h, List.mem_append] at hmem
  rcases hmem with hmem | hmem
  · exact ht p hmem
  · split_ifs at hmem
    · rw [List.mem_singleton] at hmem
      rw [hmem]; exact hp
    · exact absurd hmem (List.not_mem_nil p)

/-- C10: in every state reached by the main loop `params.height` equals
`params.width`, the texture dimensions are equal, and every kernel call has
`width = height`. -/
theorem image_always_square (pixel : PixelFn) (inputs : List FrameInput) (s : MainState)
    (hrun : run pixel inputs = some s) :
    s.params.height = s.params.width ∧ s.glimg.h = s.glimg.w ∧
      ∀ b s1, renderStep pixel b s = some s1 →
        s1.params.height = s1.params.width ∧ s1.glimg.h = s1.glimg.w ∧
          ∀ p ∈ kernelCalls s1.trace, p.height = p.width := by
  have inv : s.params.height = s.params.width ∧ s.glimg.h = s.glimg.w ∧
      ∀ p ∈ kernelCalls s.trace, p.height = p.width := by
    refine run_induction pixel
      (fun s => s.params.height = s.params.width ∧ s.glimg.h = s.glimg.w ∧
        ∀ p ∈ kernelCalls s.trace, p.height = p.width)
      (fun _ => True) ?_ ?_ inputs (fun _ _ => trivial) s hrun
    · refine ⟨rfl, rfl, ?_⟩
      intro p hp
      exact absurd hp (List.not_mem_nil p)
    · intro s0 i r ⟨hp, hg, ht⟩ _ hr
      refine ⟨controlsStep_square i r (by rw [renderStep_params pixel _ s0 r hr]; exact hp), ?_, ?_⟩
      · rw [controlsStep_glimg]
        exact renderStep_glimg_square pixel _ s0 r hp hg hr
      · rw [controlsStep_trace]
        exact renderStep_calls_square pixel _ s0 r hp ht hr
  obtain ⟨hp, hg, ht⟩ := inv
  refine ⟨hp, hg, ?_⟩
  intro b s1 h1
  refine ⟨by rw [renderStep_params pixel b s s1 h1]; exact hp,
    renderStep_glimg_square pixel b s s1 hp hg h1,
    renderStep_calls_square pixel b s s1 hp ht h1⟩

theorem image_always_square_witness :
    ∃ s, run blackPixel sampleFrames = some s ∧
      s.params.height = s.params.width ∧ s.glimg.h = s.glimg.w := by
  obtain ⟨s, hs⟩ := isSome_elim (run blackPixel sampleFrames) rfl
  have T := image_always_square blackPixel sampleFrames s hs
  exact ⟨s, hs, T.1, T.2.1⟩

/-! ## The upload -/

/-- C8: at every call of `uploadImage` in the main loop the texture
dimensions equal `params.width` and `params.height`, and `rgba` holds exactly
`glimg.w * glimg.h` entries, after any sequence of frames (Resolution values
being `int` values); the upload is the one the render step records. -/
theorem upload_dimensions_agree (pixel : PixelFn) (inputs : List FrameInput)
    (s u : MainState) (b : Bool)
    (hin : ∀ i ∈ inputs, i.resolutionIsInt32 = true)
    (hrun : run pixel inputs = some s) (hu : atUpload pixel b s = some u) :
    u.glimg.w = u.params.width ∧ u.glimg.h = u.params.height ∧
      ((u.rgba.length : Nat) : Int) = u.glimg.w * u.glimg.h ∧
      (s.auto_render = true ∨ s.needs_render = true →
        ∃ s1, renderStep pixel b s = some s1 ∧
          s1.trace = u.trace ++ [uploadImage u.glimg u.rgba]) := by
  have inv : s.params.height = s.params.width ∧
      -2147483648 ≤ s.params.width ∧ s.params.width ≤ 2147483647 := by
    refine run_induction pixel
      (fun s => s.params.height = s.params.width ∧
        -2147483648 ≤ s.params.width ∧ s.params.width ≤ 2147483647)
      (fun i => i.resolutionIsInt32 = true) ?_ ?_ inputs hin s hrun
    · exact ⟨rfl, by decide, by decide⟩
    · intro s0 i r hp hi hr
      exact controlsStep_width_int32 i _ (by rw [renderStep_params pixel _ s0 r hr]; exact hp) hi
  obtain ⟨hsq, hlo, hhi⟩ := inv
  have hd := createOrResizeTexture_dims s.glimg s.params.width s.params.height
  obtain ⟨r, hr, e⟩ := atUpload_some pixel b s u hu
  have hlen := (renderFractalCpu_some _ _ _ _ _ hr).2.1
  rw [e]
  refine ⟨hd.1, hd.2, ?_, ?_⟩
  · show ((r.length : Nat) : Int) =
      (createOrResizeTexture s.glimg s.params.width s.params.height).w *
      (createOrResizeTexture s.glimg s.params.width s.params.height).h
    rw [hd.1, hd.2, hlen, hsq]
    exact size_mul_exact _ _ (mul_self_nonneg _) (by nlinarith)
  · intro h
    refine ⟨afterRender s r, renderStep_render pixel b s r h hr, ?_⟩
    simp only [afterRender, uploadImage, hd.1, hd.2, List.append_assoc, List.singleton_append]

theorem upload_dimensions_agree_witness :
    ∃ s u, run blackPixel sampleFrames = some s ∧ atUpload blackPixel false s = some u ∧
      u.glimg.w = u.params.width ∧ u.glimg.h = u.params.height ∧
      ((u.rgba.length : Nat) : Int) = u.glimg.w * u.glimg.h := by
  obtain ⟨s, hs, hp⟩ := run_in_range_completes blackPixel sampleFrames (by decide) (by decide)
  obtain ⟨r, hr⟩ := renderFractalCpu_no_bad_alloc blackPixel s.params s.rgba
    (size_within_max _ hp)
  have hu := atUpload_of_some blackPixel false s r hr
  have T := upload_dimensions_agree blackPixel sampleFrames s _ false (by decide) hs hu
  exact ⟨s, _, hs, hu, T.1, T.2.1, T.2.2.1⟩


/-! ## The iterator at the origin -/

theorem npow_origin (k : Nat) : Cplx.npow ⟨0, 0⟩ (k + 1) = ⟨0, 0⟩ := by
  simp [Cplx.npow, Cplx.mul]

theorem newtonF_origin (n : Nat) (hn : 1 ≤ n) : newtonF n ⟨0, 0⟩ = ⟨-1, 0⟩ := by
  obtain ⟨k, rfl⟩ : ∃ k, n = k + 1 := ⟨n - 1, by omega⟩
  simp [newtonF, npow_origin, Cplx.sub]

theorem newtonDeriv_origin (n : Nat) (hn : 2 ≤ n) : newtonDeriv n ⟨0, 0⟩ = ⟨0, 0⟩ := by
  obtain ⟨k, rfl⟩ : ∃ k, n = k + 2 := ⟨n - 2, by omega⟩
  have e : k + 2 - 1 = k + 1 := by omega
  simp [newtonDeriv, e, npow_origin, Cplx.mul]

theorem withinTol_origin (tol : ℚ) (htol : tol ≤ 1) : withinTol tol ⟨-1, 0⟩ = false := by
  unfold withinTol Cplx.normSq
  rw [Bool.and_eq_false_iff]
  by_cases h : 0 < tol
  · right
    have : ¬ ((-1 : ℚ) * -1 + 0 * 0 < tol * tol) := by
      intro hlt
      nlinarith
    simpa using this
  · left
    simpa using h

/-- C7: for every `n ≥ 2` (and every iteration cap) the iteration started at
the origin returns a result, so no division fault is propagated, and that
result has `root_index = NONE`; the tolerance is any value up to 1. -/
theorem origin_classified_none (classify : Cplx → Nat → Nat) (tol : ℚ) (n max_iter : Nat)
    (hn : 2 ≤ n) (htol : tol ≤ 1) :
    (iterate classify tol ⟨0, 0⟩ n max_iter).map IterationResult.root_index = some none := by
  have hF := newtonF_origin n (by omega)
  have hD := newtonDeriv_origin n hn
  have hT := withinTol_origin tol htol
  unfold iterate
  cases max_iter with
  | zero => simp [iterateFrom, hF, hT]
  | succ m => simp [iterateFrom, hF, hT, hD]

theorem origin_classified_none_witness :
    (iterate (fun _ _ => 0) (1 / 1000000) ⟨0, 0⟩ 3 60).map IterationResult.root_index =
      some none :=
  origin_classified_none (fun _ _ => 0) (1 / 1000000) 3 60 (by decide) (by norm_num)


end NewtonFractal
